import Mathlib

/-!
Verification of `tools/babel.py`, a build-tool invocation shim.

The script reads two positional command-line arguments (an input file path
and an output file path), computes `SOURCE_ROOT` as the directory two levels
above the absolute path of the script itself, rewrites the output path by a
literal substring replacement, and calls `subprocess.check_call` on a fixed
argument vector, propagating failure of the child process.

Python strings are modelled as `List Char` (a Python `str` is a sequence of
Unicode code points).  Environmental inputs of the script are explicit
parameters: the absolute path of the script file (the value of
`os.path.abspath` applied to the script, produced by the runtime), the
current working directory (`os.getcwd()`), the argument list `sys.argv[1:]`,
and the exit status the spawned child process returns.
-/

namespace BabelShim

/-- Boolean test that `pat` is a leading segment of `s`, character by
character.  This is the elementary match step of the scanning loop used by
the CPython implementation of `str.replace`. -/
def startsWith : List Char → List Char → Bool
  | [], _ => true
  | _ :: _, [] => false
  | p :: ps, c :: cs => if p = c then startsWith ps cs else false

/-- Boolean test that `pat` occurs (as a contiguous substring) somewhere in
`s`: it matches at the head or occurs in the tail.  For the nonempty
patterns used here this is Python membership `pat in s`. -/
def occursIn (pat : List Char) : List Char → Bool
  | [] => startsWith pat []
  | c :: rest => startsWith pat (c :: rest) || occursIn pat rest

/-- Number of positions of `s` at which `pat` matches (all positions are
counted, including overlapping ones).  For a nonempty `pat`, the statement
that `s` contains `pat` exactly once is `countOccurrences pat s = 1`. -/
def countOccurrences (pat : List Char) : List Char → Nat
  | [] => 0
  | c :: rest =>
      (if startsWith pat (c :: rest) = true then 1 else 0) + countOccurrences pat rest

/-- Fuel-indexed scanning loop of Python `str.replace(old, new)` for a
nonempty `old`: scan `s` left to right; on a match of `pat`, emit `new` and
resume right after the matched segment (so text produced by a replacement is
never rescanned); otherwise copy one character and continue.  The fuel is
always at least `s.length` when called through `replaceAll`, so the fuel-0
branch is never taken there.  After a match at `c :: rest`, the remainder of
the string is `rest` with the other `pat.length - 1` matched characters
removed.  (The `pat ≠ []` guard makes the function total; Python treats an
empty pattern specially, a case never used by this script, whose pattern is
the nonempty literal below.) -/
def replaceAllAux (pat new : List Char) : Nat → List Char → List Char
  | 0, s => s
  | _ + 1, [] => []
  | fuel + 1, c :: rest =>
      if startsWith pat (c :: rest) = true ∧ pat ≠ [] then
        new ++ replaceAllAux pat new fuel (List.drop (pat.length - 1) rest)
      else
        c :: replaceAllAux pat new fuel rest

/-- Python `s.replace(pat, new)` for nonempty `pat`: the scanning loop run
with enough fuel to traverse all of `s`. -/
def replaceAll (pat new s : List Char) : List Char :=
  replaceAllAux pat new s.length s

/-- The literal first argument of the `out_file.replace` call in the
script. -/
def oldSub : List Char := ("../../electron/src/").toList

/-- The literal second argument of the `out_file.replace` call in the
script. -/
def newSub : List Char := ("electron/src/").toList

/-- Model of `os.path.dirname` for POSIX paths, translated from CPython
`posixpath.dirname`: take everything up to and including the last slash,
then strip trailing slashes unless the result is empty or consists only of
slashes. -/
def dirname (p : List Char) : List Char :=
  let tailLen := (p.reverse.takeWhile (fun c => c != '/')).length
  let head := p.take (p.length - tailLen)
  if head ≠ [] ∧ head.any (fun c => c != '/') then
    (head.reverse.dropWhile (fun c => c == '/')).reverse
  else head

/-- The `SOURCE_ROOT` binding of the script:
`os.path.dirname(os.path.dirname(os.path.abspath(__file__)))`.  The value of
`os.path.abspath(__file__)` is the environmental parameter
`scriptAbsPath`. -/
def SOURCE_ROOT (scriptAbsPath : List Char) : List Char :=
  dirname (dirname scriptAbsPath)

/-- The argument vector the script hands to `subprocess.check_call`,
element by element as written in the source: the command `node`, the babel
script under `SOURCE_ROOT`, the absolute input path `os.getcwd() + "/" +
in_file`, `-o`, the rewritten output path, `--source-maps`, `inline`,
`--config-file`, and the config path under `SOURCE_ROOT`. -/
def babelArgv (scriptAbsPath cwd in_file out_file : List Char) : List (List Char) :=
  [ ("node").toList,
    SOURCE_ROOT scriptAbsPath ++ ("/node_modules/.bin/babel").toList,
    cwd ++ ("/").toList ++ in_file,
    ("-o").toList,
    replaceAll oldSub newSub out_file,
    ("--source-maps").toList,
    ("inline").toList,
    ("--config-file").toList,
    SOURCE_ROOT scriptAbsPath ++ ("/.babelrc").toList ]

/-- Observable outcome of one run of the module body: either the subscripts
`sys.argv[1]` / `sys.argv[2]` raise `IndexError` before any process is
spawned, or exactly one child process is spawned with a given argument
vector and exits with a given status. -/
inductive RunResult where
  | indexError : RunResult
  | spawned : List (List Char) → Nat → RunResult

/-- The module body of `tools/babel.py`.  `args` is `sys.argv[1:]` (the
user-supplied arguments after the script name), so `in_file = sys.argv[1]`
is its first element and `out_file = sys.argv[2]` its second; with fewer
than two arguments the subscript raises `IndexError` and nothing is
spawned.  `childStatus` is the exit status the spawned child process
returns, an environmental input. -/
def runScript (scriptAbsPath cwd : List Char) (args : List (List Char))
    (childStatus : Nat) : RunResult :=
  match args with
  | in_file :: out_file :: _ =>
      RunResult.spawned (babelArgv scriptAbsPath cwd in_file out_file) childStatus
  | _ => RunResult.indexError

/-- Exit status of the invoking interpreter, from CPython runtime
semantics: an uncaught exception (here either the `IndexError` from the
argument subscripts or the `CalledProcessError` that
`subprocess.check_call` raises when the child exits non-zero) terminates
the interpreter with status 1; otherwise the script falls off the end and
the interpreter exits with status 0. -/
def invokerExit : RunResult → Nat
  | RunResult.indexError => 1
  | RunResult.spawned _ c => if c = 0 then 0 else 1

/-- Command line as claim C1 words it: the transpiler executable itself as
the spawned command, followed by the claimed argument list, with
`--source-maps inline` as a single argument as quoted there.  This
definition follows the words of the claim, for comparison with
`babelArgv`, which follows the source. -/
def claimedArgvC1 (scriptAbsPath cwd in_file out_file : List Char) : List (List Char) :=
  [ SOURCE_ROOT scriptAbsPath ++ ("/node_modules/.bin/babel").toList,
    cwd ++ ("/").toList ++ in_file,
    ("-o").toList,
    replaceAll oldSub newSub out_file,
    ("--source-maps inline").toList,
    ("--config-file").toList,
    SOURCE_ROOT scriptAbsPath ++ ("/.babelrc").toList ]

/-! ### Basic lemmas about the scanning loop -/

/-- The scanning loop does not depend on the fuel, as long as the fuel
suffices to traverse the whole string. -/
theorem replaceAllAux_fuel (pat new : List Char) :
    ∀ f₁ f₂ s, s.length ≤ f₁ → s.length ≤ f₂ →
      replaceAllAux pat new f₁ s = replaceAllAux pat new f₂ s := by
  intro f₁
  induction f₁ with
  | zero =>
      intro f₂ s h1 _
      cases s with
      | nil => cases f₂ <;> rfl
      | cons c rest => simp at h1
  | succ k ih =>
      intro f₂ s h1 h2
      cases s with
      | nil => cases f₂ <;> rfl
      | cons c rest =>
          cases f₂ with
          | zero => simp at h2
          | succ m =>
              simp only [List.length_cons, Nat.succ_le_succ_iff] at h1 h2
              simp only [replaceAllAux]
              by_cases h : startsWith pat (c :: rest) = true ∧ pat ≠ []
              · rw [if_pos h, if_pos h]
                have hd : (List.drop (pat.length - 1) rest).length ≤ rest.length := by
                  simp [List.length_drop]
                exact congrArg (new ++ ·)
                  (ih m (List.drop (pat.length - 1) rest)
                    (le_trans hd h1) (le_trans hd h2))
              · rw [if_neg h, if_neg h]
                exact congrArg (c :: ·) (ih m rest h1 h2)

/-- Unfolding equation of `replaceAll` at a match: emit `new` and resume
after the matched segment. -/
theorem replaceAll_cons_pos (pat new : List Char) (c : Char) (rest : List Char)
    (hp : pat ≠ []) (hm : startsWith pat (c :: rest) = true) :
    replaceAll pat new (c :: rest)
      = new ++ replaceAll pat new (List.drop (pat.length - 1) rest) := by
  show replaceAllAux pat new (c :: rest).length (c :: rest) = _
  simp only [List.length_cons, replaceAllAux, if_pos (And.intro hm hp)]
  exact congrArg (new ++ ·)
    (replaceAllAux_fuel pat new rest.length (List.drop (pat.length - 1) rest).length
      (List.drop (pat.length - 1) rest)
      (by simp [List.length_drop]) (le_refl _))

/-- Unfolding equation of `replaceAll` at a non-match: copy one character
and continue with the tail. -/
theorem replaceAll_cons_neg (pat new : List Char) (c : Char) (rest : List Char)
    (hm : startsWith pat (c :: rest) = false) :
    replaceAll pat new (c :: rest) = c :: replaceAll pat new rest := by
  show replaceAllAux pat new (c :: rest).length (c :: rest) = _
  have hneg : ¬ (startsWith pat (c :: rest) = true ∧ pat ≠ []) := by
    intro h
    rw [hm] at h
    exact Bool.false_ne_true h.1
  simp only [List.length_cons, replaceAllAux, if_neg hneg]
  rfl

/-- A nonempty pattern matches at the head of itself followed by
anything. -/
theorem startsWith_self_append (pat b : List Char) :
    startsWith pat (pat ++ b) = true := by
  induction pat with
  | nil => rfl
  | cons p ps ih => simp [startsWith, ih]

/-- Unfolding equation of the occurrence count at a cons cell. -/
theorem countOccurrences_cons (pat : List Char) (c : Char) (rest : List Char) :
    countOccurrences pat (c :: rest)
      = (if startsWith pat (c :: rest) = true then 1 else 0)
        + countOccurrences pat rest := rfl

/-- Strings without any occurrence of the pattern are left unchanged by the
replacement. -/
theorem replaceAll_eq_self_of_count_zero (pat new : List Char) :
    ∀ s, countOccurrences pat s = 0 → replaceAll pat new s = s := by
  intro s
  induction s with
  | nil => intro _; rfl
  | cons c rest ih =>
      intro h
      rw [countOccurrences_cons] at h
      by_cases hm : startsWith pat (c :: rest) = true
      · rw [if_pos hm] at h
        omega
      · rw [if_neg hm] at h
        rw [replaceAll_cons_neg pat new c rest (Bool.not_eq_true _ ▸ hm)]
        rw [ih (by omega)]

/-- Prepending one character cannot decrease the occurrence count. -/
theorem count_le_count_cons (pat : List Char) (c : Char) (rest : List Char) :
    countOccurrences pat rest ≤ countOccurrences pat (c :: rest) := by
  rw [countOccurrences_cons]
  by_cases hm : startsWith pat (c :: rest) = true
  · rw [if_pos hm]; omega
  · rw [if_neg hm]; omega

/-- Occurrence count of the pattern in a suffix bounds the count in the
whole string. -/
theorem count_le_count_append (pat x b : List Char) :
    countOccurrences pat b ≤ countOccurrences pat (x ++ b) := by
  induction x with
  | nil => exact le_refl _
  | cons c x' ih =>
      rw [List.cons_append]
      exact le_trans ih (count_le_count_cons pat c (x' ++ b))

/-- A string beginning with the nonempty pattern has strictly more
occurrences than its remainder past the head. -/
theorem count_self_append (pat b : List Char) (hp : pat ≠ []) :
    1 + countOccurrences pat b ≤ countOccurrences pat (pat ++ b) := by
  cases pat with
  | nil => exact absurd rfl hp
  | cons p ps =>
      rw [List.cons_append, countOccurrences_cons]
      have hm : startsWith (p :: ps) (p :: (ps ++ b)) = true := by
        have := startsWith_self_append (p :: ps) b
        rwa [List.cons_append] at this
      rw [if_pos hm]
      have := count_le_count_append (p :: ps) ps b
      omega


/-- The occurrence count is zero exactly when the Boolean containment test
fails, for a nonempty pattern. -/
theorem count_eq_zero_iff_occursIn_false (pat : List Char) (hp : pat ≠ []) :
    ∀ s, countOccurrences pat s = 0 ↔ occursIn pat s = false := by
  intro s
  induction s with
  | nil =>
      cases pat with
      | nil => exact absurd rfl hp
      | cons p ps => simp [countOccurrences, occursIn, startsWith]
  | cons c rest ih =>
      rw [countOccurrences_cons]
      show _ ↔ (startsWith pat (c :: rest) || occursIn pat rest) = false
      rw [Bool.or_eq_false_iff]
      by_cases hm : startsWith pat (c :: rest) = true
      · rw [if_pos hm]
        simp [hm]
      · rw [if_neg hm]
        simp only [Nat.zero_add]
        rw [ih]
        simp [Bool.not_eq_true _ ▸ hm]

/-- Replacement of a unique occurrence: if the pattern occurs exactly once,
splitting the string as `a ++ pat ++ b`, the replacement substitutes `new`
for that occurrence and leaves `a` and `b` untouched. -/
theorem replaceAll_single (pat new : List Char) (hp : pat ≠ []) :
    ∀ a b, countOccurrences pat (a ++ pat ++ b) = 1 →
      replaceAll pat new (a ++ pat ++ b) = a ++ new ++ b := by
  intro a
  induction a with
  | nil =>
      intro b h
      rw [List.nil_append] at h ⊢
      rw [List.nil_append]
      have hb : countOccurrences pat b = 0 := by
        have := count_self_append pat b hp
        omega
      cases pat with
      | nil => exact absurd rfl hp
      | cons p ps =>
          have hm : startsWith (p :: ps) (p :: (ps ++ b)) = true := by
            have := startsWith_self_append (p :: ps) b
            rwa [List.cons_append] at this
          rw [List.cons_append,
            replaceAll_cons_pos (p :: ps) new p (ps ++ b) hp hm]
          have hdrop : List.drop ((p :: ps).length - 1) (ps ++ b) = b := by
            simp only [List.length_cons, Nat.add_sub_cancel]
            exact List.drop_left ps b
          rw [hdrop, replaceAll_eq_self_of_count_zero (p :: ps) new b hb]
  | cons x a' ih =>
      intro b h
      simp only [List.cons_append] at h ⊢
      have hone : 1 ≤ countOccurrences pat (a' ++ pat ++ b) := by
        have h1 := count_self_append pat b hp
        have h2 := count_le_count_append pat a' (pat ++ b)
        rw [List.append_assoc]
        omega
      rw [countOccurrences_cons] at h
      have hm : startsWith pat (x :: (a' ++ pat ++ b)) = false := by
        by_cases hm' : startsWith pat (x :: (a' ++ pat ++ b)) = true
        · rw [if_pos hm'] at h
          omega
        · exact Bool.not_eq_true _ ▸ hm'
      rw [replaceAll_cons_neg pat new x (a' ++ pat ++ b) hm]
      rw [if_neg (by rw [hm]; exact Bool.false_ne_true)] at h
      rw [ih b (by omega)]

/-! ### Claims -/

/-- C1, counterexample: the claim says the transpiler executable at
`SOURCE_ROOT/node_modules/.bin/babel` is itself the spawned command, with
the absolute input path as its first argument.  At a concrete input the
spawned vector starts with the command `node` instead, with the babel path
as the first argument of `node`, so the vector the claim describes
(`claimedArgvC1`) differs from the vector the script builds
(`babelArgv`). -/
theorem c1_counterexample :
    (babelArgv (("/repo/tools/babel.py").toList) (("/work").toList)
        (("a.js").toList) (("b.js").toList))[0]?
      = some (("node").toList)
    ∧ claimedArgvC1 (("/repo/tools/babel.py").toList) (("/work").toList)
        (("a.js").toList) (("b.js").toList)
      ≠ babelArgv (("/repo/tools/babel.py").toList) (("/work").toList)
        (("a.js").toList) (("b.js").toList) := by
  decide

/-- C1, amended: for every pair of command-line arguments the spawned
command is `node`, and its argument vector is exactly: the babel script at
`SOURCE_ROOT/node_modules/.bin/babel`, the absolute input path (current
working directory, a slash, and the input argument), `-o`, the rewritten
output path, `--source-maps`, `inline` (two separate arguments),
`--config-file`, and `SOURCE_ROOT/.babelrc`, in that order. -/
theorem c1_amended_argv (scriptAbsPath cwd in_file out_file : List Char)
    (rest : List (List Char)) (childStatus : Nat) :
    runScript scriptAbsPath cwd (in_file :: out_file :: rest) childStatus
      = RunResult.spawned
          [ ("node").toList,
            SOURCE_ROOT scriptAbsPath ++ ("/node_modules/.bin/babel").toList,
            cwd ++ ("/").toList ++ in_file,
            ("-o").toList,
            replaceAll oldSub newSub out_file,
            ("--source-maps").toList,
            ("inline").toList,
            ("--config-file").toList,
            SOURCE_ROOT scriptAbsPath ++ ("/.babelrc").toList ] childStatus := rfl

/-- C2, counterexample: when the child process exits with status 2 the
invoker terminates with status 1 (the interpreter status for the uncaught
`CalledProcessError`), which is non-zero but does not equal (mirror) the
child status. -/
theorem c2_counterexample :
    invokerExit (runScript (("/repo/tools/babel.py").toList) (("/w").toList)
        [("a.js").toList, ("b.js").toList] 2) = 1
    ∧ (1 : Nat) ≠ 2 := by
  decide

/-- C2, amended: for every non-zero child exit status the invoker
terminates with the non-zero status 1 (it does not in general equal the
child status), and for child status zero the invoker terminates with
status zero. -/
theorem c2_amended_exit_propagation (scriptAbsPath cwd in_file out_file : List Char)
    (rest : List (List Char)) (childStatus : Nat) :
    (childStatus ≠ 0 →
      invokerExit
          (runScript scriptAbsPath cwd (in_file :: out_file :: rest) childStatus)
        = 1)
    ∧ (childStatus = 0 →
      invokerExit
          (runScript scriptAbsPath cwd (in_file :: out_file :: rest) childStatus)
        = 0) := by
  constructor
  · intro h
    show (if childStatus = 0 then 0 else 1) = 1
    rw [if_neg h]
  · intro h
    show (if childStatus = 0 then 0 else 1) = 0
    rw [if_pos h]

/-- Witness for the amended C2 at child statuses 2 and 0. -/
theorem c2_amended_exit_propagation_witness :
    ((2 : Nat) ≠ 0 ∧ invokerExit (runScript [] [] [[], []] 2) = 1)
    ∧ ((0 : Nat) = 0 ∧ invokerExit (runScript [] [] [[], []] 0) = 0) :=
  ⟨⟨by decide, (c2_amended_exit_propagation [] [] [] [] [] 2).1 (by decide)⟩,
   ⟨rfl, (c2_amended_exit_propagation [] [] [] [] [] 0).2 rfl⟩⟩

/-- C3: the path rewrite is a one-time, non-recursive, literal substring
replacement over the whole string, applied before the path is handed to the
transpiler: on a match the replacement text is emitted and scanning resumes
after the matched segment, on a non-match one character is copied, the
rewritten (not the raw) output path is element 4 of the spawned vector, and
an occurrence newly created by a replacement (concretely, in
`../../../../electron/src/x`, whose single occurrence is replaced, leaving
`../../electron/src/x`, which again contains the substring) is not replaced
again. -/
theorem c3_single_pass_replace :
    (∀ c rest, startsWith oldSub (c :: rest) = true →
        replaceAll oldSub newSub (c :: rest)
          = newSub ++ replaceAll oldSub newSub (List.drop (oldSub.length - 1) rest))
    ∧ (∀ c rest, startsWith oldSub (c :: rest) = false →
        replaceAll oldSub newSub (c :: rest) = c :: replaceAll oldSub newSub rest)
    ∧ (∀ scriptAbsPath cwd in_file out_file : List Char,
        (babelArgv scriptAbsPath cwd in_file out_file)[4]?
          = some (replaceAll oldSub newSub out_file))
    ∧ countOccurrences oldSub (("../../../../electron/src/x").toList) = 1
    ∧ replaceAll oldSub newSub (("../../../../electron/src/x").toList)
        = ("../../electron/src/x").toList
    ∧ occursIn oldSub
        (replaceAll oldSub newSub (("../../../../electron/src/x").toList)) = true := by
  refine ⟨?_, ?_, ?_, by decide, by decide, by decide⟩
  · intro c rest h
    exact replaceAll_cons_pos oldSub newSub c rest (by decide) h
  · intro c rest h
    exact replaceAll_cons_neg oldSub newSub c rest h
  · intro scriptAbsPath cwd in_file out_file
    rfl

/-- Witness for C3: both scanning equations exercised at concrete
strings, a matching head and a non-matching head. -/
theorem c3_single_pass_replace_witness :
    replaceAll oldSub newSub ('.' :: ("./../electron/src/out.js").toList)
      = newSub ++ replaceAll oldSub newSub
          (List.drop (oldSub.length - 1) (("./../electron/src/out.js").toList))
    ∧ replaceAll oldSub newSub ('d' :: ("ist/x").toList)
      = 'd' :: replaceAll oldSub newSub (("ist/x").toList) :=
  ⟨c3_single_pass_replace.1 '.' (("./../electron/src/out.js").toList) (by decide),
   c3_single_pass_replace.2.1 'd' (("ist/x").toList) (by decide)⟩

/-- C4: for every output path containing the substring exactly once, here
split as `a ++ oldSub ++ b`, the effective output path replaces that one
occurrence by `newSub` and keeps every character of `a` and `b`
unchanged. -/
theorem c4_replace_exactly_once (a b : List Char)
    (h : countOccurrences oldSub (a ++ oldSub ++ b) = 1) :
    replaceAll oldSub newSub (a ++ oldSub ++ b) = a ++ newSub ++ b :=
  replaceAll_single oldSub newSub (by decide) a b h

/-- Witness for C4 at the output path `dist/../../electron/src/out.js`. -/
theorem c4_replace_exactly_once_witness :
    countOccurrences oldSub (("dist/").toList ++ oldSub ++ ("out.js").toList) = 1
    ∧ replaceAll oldSub newSub (("dist/").toList ++ oldSub ++ ("out.js").toList)
        = ("dist/").toList ++ newSub ++ ("out.js").toList :=
  ⟨by decide,
   c4_replace_exactly_once (("dist/").toList) (("out.js").toList) (by decide)⟩

/-- C5, counterexample: the string `../../../../electron/src/x` contains
the substring exactly once, yet applying the rewrite twice does not equal
applying it once — the single replacement creates a new occurrence, so the
matched substring can exist again after one replacement. -/
theorem c5_counterexample :
    countOccurrences oldSub (("../../../../electron/src/x").toList) = 1
    ∧ replaceAll oldSub newSub
        (replaceAll oldSub newSub (("../../../../electron/src/x").toList))
      ≠ replaceAll oldSub newSub (("../../../../electron/src/x").toList) := by
  decide

/-- C5, amended: for every output path containing the substring exactly
once and whose rewritten form no longer contains the substring, applying
the rewrite twice yields the same result as applying it once. -/
theorem c5_amended_idempotent (s : List Char)
    (_h1 : countOccurrences oldSub s = 1)
    (h2 : occursIn oldSub (replaceAll oldSub newSub s) = false) :
    replaceAll oldSub newSub (replaceAll oldSub newSub s)
      = replaceAll oldSub newSub s :=
  replaceAll_eq_self_of_count_zero oldSub newSub _
    ((count_eq_zero_iff_occursIn_false oldSub (by decide) _).mpr h2)

/-- Witness for the amended C5 at the output path
`a/../../electron/src/o`. -/
theorem c5_amended_idempotent_witness :
    countOccurrences oldSub (("a/../../electron/src/o").toList) = 1
    ∧ occursIn oldSub
        (replaceAll oldSub newSub (("a/../../electron/src/o").toList)) = false
    ∧ replaceAll oldSub newSub
        (replaceAll oldSub newSub (("a/../../electron/src/o").toList))
      = replaceAll oldSub newSub (("a/../../electron/src/o").toList) :=
  ⟨by decide, by decide,
   c5_amended_idempotent (("a/../../electron/src/o").toList) (by decide) (by decide)⟩

/-- C6: for every output path that does not contain the substring, the
rewrite is the identity: the effective output path is byte-identical to the
argument. -/
theorem c6_no_occurrence_identity (s : List Char)
    (h : occursIn oldSub s = false) :
    replaceAll oldSub newSub s = s :=
  replaceAll_eq_self_of_count_zero oldSub newSub s
    ((count_eq_zero_iff_occursIn_false oldSub (by decide) s).mpr h)

/-- Witness for C6 at the output path `dist/out.js`. -/
theorem c6_no_occurrence_identity_witness :
    occursIn oldSub (("dist/out.js").toList) = false
    ∧ replaceAll oldSub newSub (("dist/out.js").toList) = ("dist/out.js").toList :=
  ⟨by decide, c6_no_occurrence_identity (("dist/out.js").toList) (by decide)⟩

/-- C7: with fewer than two command-line arguments the run ends in the
`IndexError` outcome — no child process is spawned — and the invoker exit
status is non-zero. -/
theorem c7_missing_args_no_spawn (scriptAbsPath cwd : List Char)
    (args : List (List Char)) (childStatus : Nat) (h : args.length < 2) :
    runScript scriptAbsPath cwd args childStatus = RunResult.indexError
    ∧ invokerExit (runScript scriptAbsPath cwd args childStatus) ≠ 0 := by
  match args with
  | [] => exact ⟨rfl, Nat.one_ne_zero⟩
  | [a] => exact ⟨rfl, Nat.one_ne_zero⟩
  | a :: b :: t =>
      exfalso
      simp only [List.length_cons] at h
      omega

/-- Witness for C7 with a single argument supplied. -/
theorem c7_missing_args_no_spawn_witness :
    ([("x").toList] : List (List Char)).length < 2
    ∧ (runScript [] [] [("x").toList] 0 = RunResult.indexError
       ∧ invokerExit (runScript [] [] [("x").toList] 0) ≠ 0) :=
  ⟨by decide, c7_missing_args_no_spawn [] [] [("x").toList] 0 (by decide)⟩

/-- C8: invoked on input path `a/b.js` and output path
`../../electron/src/out.js`, the script spawns the fixed vector whose input
element is the current working directory followed by `/a/b.js` and whose
output element is `electron/src/out.js`. -/
theorem c8_concrete_invocation (scriptAbsPath cwd : List Char)
    (rest : List (List Char)) (childStatus : Nat) :
    runScript scriptAbsPath cwd
        (("a/b.js").toList :: ("../../electron/src/out.js").toList :: rest)
        childStatus
      = RunResult.spawned
          (babelArgv scriptAbsPath cwd (("a/b.js").toList)
            (("../../electron/src/out.js").toList)) childStatus
    ∧ (babelArgv scriptAbsPath cwd (("a/b.js").toList)
        (("../../electron/src/out.js").toList))[2]?
      = some (cwd ++ ("/a/b.js").toList)
    ∧ (babelArgv scriptAbsPath cwd (("a/b.js").toList)
        (("../../electron/src/out.js").toList))[4]?
      = some (("electron/src/out.js").toList) := by
  refine ⟨rfl, ?_, ?_⟩
  · have hx : ("/").toList ++ ("a/b.js").toList = ("/a/b.js").toList := by decide
    show some (cwd ++ ("/").toList ++ ("a/b.js").toList)
      = some (cwd ++ ("/a/b.js").toList)
    rw [List.append_assoc, hx]
  · show some (replaceAll oldSub newSub (("../../electron/src/out.js").toList))
      = some (("electron/src/out.js").toList)
    exact congrArg some (by decide)

/-- C9: the spawned argument vector is a deterministic pure function of the
two command-line arguments, the current working directory and the script
location: two runs agreeing on those inputs — even with different trailing
arguments (which the script ignores) and different child statuses — spawn
the identical vector `babelArgv scriptAbsPath cwd in_file out_file`. -/
theorem c9_deterministic_argv (scriptAbsPath cwd in_file out_file : List Char)
    (rest rest' : List (List Char)) (childStatus childStatus' : Nat) :
    runScript scriptAbsPath cwd (in_file :: out_file :: rest) childStatus
      = RunResult.spawned (babelArgv scriptAbsPath cwd in_file out_file) childStatus
    ∧ runScript scriptAbsPath cwd (in_file :: out_file :: rest') childStatus'
      = RunResult.spawned (babelArgv scriptAbsPath cwd in_file out_file) childStatus' :=
  ⟨rfl, rfl⟩

/-- C10: presence is the only validation — with empty-string input and
output arguments the run still reaches the spawn, the absolute input path
degenerates to the working directory followed by a bare slash, and the
output argument passes through the rewrite as the empty string. -/
theorem c10_empty_args_spawn (scriptAbsPath cwd : List Char)
    (rest : List (List Char)) (childStatus : Nat) :
    runScript scriptAbsPath cwd ([] :: [] :: rest) childStatus
      = RunResult.spawned (babelArgv scriptAbsPath cwd [] []) childStatus
    ∧ (babelArgv scriptAbsPath cwd [] [])[2]? = some (cwd ++ ("/").toList)
    ∧ (babelArgv scriptAbsPath cwd [] [])[4]? = some [] := by
  refine ⟨rfl, ?_, rfl⟩
  show some (cwd ++ ("/").toList ++ []) = some (cwd ++ ("/").toList)
  rw [List.append_nil]

end BabelShim
